import Mathlib

/-!
Verification of the via-mcp-server knowledge-base core: a shallow embedding
of the paginated document index (kb.ts, second revision), the trust-based
access-policy engine, the audit logger and the gated tool handlers of the
HTTP server, together with proofs of the specification's claims about them.

JavaScript strings are modelled as lists of characters; JavaScript numbers
that the code only compares and interpolates (trust scores, thresholds) are
modelled as integers; fallible operations (thrown exceptions, failed reads)
are modelled with `Except`/`Option`; the external Supabase stores and the
audit sink are modelled as function parameters.
-/

namespace ViaMcp

/-- JavaScript strings, modelled as lists of characters. -/
abbrev Str := List Char

/-- Model of JavaScript `String.prototype.trim`: strip whitespace from both ends. -/
def jsTrim (s : Str) : Str :=
  ((s.dropWhile Char.isWhitespace).reverse.dropWhile Char.isWhitespace).reverse

/-- Model of JavaScript `String.prototype.toLowerCase` (per-character lowering). -/
def jsToLower (s : Str) : Str :=
  s.map Char.toLower

/-- Model of JavaScript `Array.prototype.join(" ")` on an array of strings. -/
def joinSpace (parts : List Str) : Str :=
  List.intercalate ([' ']) parts

/-- Model of JavaScript `String.prototype.split(sep)` for a string separator:
greedy left-to-right scan producing the pieces between non-overlapping
occurrences of `sep`.  `acc` holds the reversed characters of the piece
being accumulated.  The scan consumes at least one character per step, so
it is driven by a fuel argument initialized to the string length (the
fuel-exhausted branch is unreachable for adequate fuel); this keeps the
definition structurally recursive and kernel-evaluable. -/
def splitGo (sep : Str) : Nat → Str → Str → List Str
  | _, [], acc => [acc.reverse]
  | 0, c :: rest, acc => [acc.reverse ++ c :: rest]
  | fuel + 1, c :: rest, acc =>
    if sep ≠ [] ∧ sep.isPrefixOf (c :: rest) then
      acc.reverse :: splitGo sep fuel ((c :: rest).drop sep.length) []
    else
      splitGo sep fuel rest (c :: acc)

/-- The JavaScript split of `s` at `sep` (`s.split(sep)` with a nonempty
string separator). -/
def jsSplit (sep s : Str) : List Str :=
  splitGo sep s.length s []

/-- Reference count (fuelled scan) of non-overlapping substring occurrences,
with the same scan structure as `splitGo`. -/
def countOccGo (sep : Str) : Nat → Str → Nat
  | _, [] => 0
  | 0, _ :: _ => 0
  | fuel + 1, c :: rest =>
    if sep ≠ [] ∧ sep.isPrefixOf (c :: rest) then
      countOccGo sep fuel ((c :: rest).drop sep.length) + 1
    else
      countOccGo sep fuel rest

/-- Count of non-overlapping substring occurrences of `sep` in `s`,
scanning left to right (the wording used by the specification for search
scoring).  By convention the empty pattern occurs zero times. -/
def countOcc (sep s : Str) : Nat :=
  countOccGo sep s.length s

theorem splitGo_length (sep : Str) (hsep : sep ≠ []) :
    ∀ fuel (s : Str), s.length ≤ fuel → ∀ acc,
      (splitGo sep fuel s acc).length = countOccGo sep fuel s + 1 := by
  intro fuel
  induction fuel with
  | zero =>
    intro s hs acc
    have hnil : s = [] := List.length_eq_zero.mp (Nat.le_zero.mp hs)
    subst hnil
    simp [splitGo, countOccGo]
  | succ n ih =>
    intro s hs acc
    match s with
    | [] => simp [splitGo, countOccGo]
    | c :: rest =>
      rw [splitGo, countOccGo]
      by_cases h : sep.isPrefixOf (c :: rest)
      · have hc : sep ≠ [] ∧ sep.isPrefixOf (c :: rest) := ⟨hsep, h⟩
        rw [if_pos hc, if_pos hc]
        have hlen : ((c :: rest).drop sep.length).length ≤ n := by
          have hpos : 0 < sep.length := List.length_pos.mpr hsep
          simp only [List.length_drop, List.length_cons]
          simp only [List.length_cons] at hs
          omega
        simp [ih _ hlen]
      · have hc : ¬ (sep ≠ [] ∧ sep.isPrefixOf (c :: rest)) := by
          intro hcontra
          exact h hcontra.2
        rw [if_neg hc, if_neg hc]
        have hlen : rest.length ≤ n := by
          simp only [List.length_cons] at hs
          omega
        exact ih rest hlen (c :: acc)

/-- For a nonempty separator, the JavaScript idiom
`s.split(sep).length - 1` counts exactly the non-overlapping occurrences
of `sep` in `s`. -/
theorem jsSplit_length_sub_one (sep s : Str) (hsep : sep ≠ []) :
    (jsSplit sep s).length - 1 = countOcc sep s := by
  unfold jsSplit countOcc
  rw [splitGo_length sep hsep s.length s (Nat.le_refl _) []]
  omega

/-- Splitting at the empty separator never matches in our model, so the scan
accumulates the whole input into a single piece. -/
theorem splitGo_nil_sep : ∀ fuel (s acc : Str), (splitGo [] fuel s acc).length = 1 := by
  intro fuel
  induction fuel with
  | zero =>
    intro s acc
    cases s <;> simp [splitGo]
  | succ n ih =>
    intro s acc
    cases s with
    | nil => simp [splitGo]
    | cons c rest =>
      rw [splitGo]
      have hc : ¬ (([] : Str) ≠ [] ∧ ([] : Str).isPrefixOf (c :: rest)) := by
        intro hcontra
        exact hcontra.1 rfl
      rw [if_neg hc]
      exact ih rest (c :: acc)

/-! ### Data model of the knowledge base (kb.ts, paginated revision) -/

/-- The two corpora of the knowledge base. -/
inductive Corpus where
  | human
  | technical
deriving DecidableEq, Repr, BEq

/-- The serialized corpus name, as it appears in tool arguments and audit rows. -/
def corpusStr : Corpus → Str
  | .human => ("human").toList
  | .technical => ("technical").toList

/-- The three output formats of `kbGet`. -/
inductive DocFormat where
  | markdown
  | text
  | outline_json
deriving DecidableEq, Repr, BEq

/-- The serialized format name. -/
def fmtStr : DocFormat → Str
  | .markdown => ("markdown").toList
  | .text => ("text").toList
  | .outline_json => ("outline_json").toList

/-- One outline heading, produced by `buildOutline`. -/
structure Heading where
  level : Nat
  text : Str
deriving DecidableEq, Repr

/-- A document held by the in-memory index: manifest metadata plus the raw
markdown, the stripped plain text and the derived outline. -/
structure LoadedDoc where
  id : Str
  corpus : Corpus
  title : Str
  tags : List Str
  file : Str
  markdown : Str
  text : Str
  outline : List Heading
deriving DecidableEq, Repr

/-- The summary of a document returned by `kbList` (id, title, corpus, tags, file). -/
structure DocSummary where
  id : Str
  title : Str
  corpus : Corpus
  tags : List Str
  file : Str
deriving DecidableEq, Repr

/-- Projection of a loaded document to its `kbList` summary. -/
def docSummary (d : LoadedDoc) : DocSummary :=
  { id := d.id, title := d.title, corpus := d.corpus, tags := d.tags, file := d.file }

/-- The result of `kbList`. -/
structure ListResult where
  total : Nat
  limit : Nat
  offset : Nat
  results : List DocSummary
deriving DecidableEq, Repr

/-- One search hit as returned by `kbSearch`. -/
structure SearchEntry where
  id : Str
  title : Str
  corpus : Corpus
  tags : List Str
  score : Nat
deriving DecidableEq, Repr

/-- The result of `kbSearch`. -/
structure SearchResult where
  query : Str
  corpus : Str
  total : Nat
  limit : Nat
  offset : Nat
  results : List SearchEntry
deriving DecidableEq, Repr

/-- The content payload of `kbGet`, depending on the requested format. -/
inductive DocContent where
  | markdown (s : Str)
  | text (s : Str)
  | outline (hs : List Heading)
deriving DecidableEq, Repr

/-- The result of `kbGet`. -/
structure GetResult where
  id : Str
  title : Str
  corpus : Corpus
  format : DocFormat
  content : DocContent
deriving DecidableEq, Repr

/-- The result of `kbRender` (this revision returns no excerpts). -/
structure RenderResult where
  audience : Corpus
  query : Str
  sources : List Str
deriving DecidableEq, Repr

/-! ### The kb.ts module functions -/

/-- The message thrown by `assertReady` when the module-level `docs` list is empty. -/
def notInitMsg : Str :=
  ("KB not initialized. Call kbInit().").toList

/-- The message thrown by `kbGet` for an id absent from `byId`. -/
def unknownIdMsg (id : Str) : Str :=
  ("Unknown document id: ").toList ++ id

/-- Lookup in the module-level `byId` map, which is built as
`new Map(docs.map((d) => [d.id, d]))`: for a duplicated id the last
insertion wins, so lookup scans from the end of the load order. -/
def byIdGet (docs : List LoadedDoc) (id : Str) : Option LoadedDoc :=
  docs.reverse.find? (fun d => d.id == id)

/-- The corpus filter `(d) => (corpus ? d.corpus === corpus : true)`. -/
def corpusMatch (corpus : Option Corpus) (d : LoadedDoc) : Bool :=
  match corpus with
  | some c => d.corpus == c
  | none => true

/-- The corpus echoed by `kbSearch` (`corpus ?? "all"`). -/
def corpusField (corpus : Option Corpus) : Str :=
  match corpus with
  | some c => corpusStr c
  | none => ("all").toList

/-- The lowercased haystack of a document as built by `kbSearch`:
the template literal joins title, joined tags and plain text with
NEWLINE characters. -/
def searchHay (d : LoadedDoc) : Str :=
  jsToLower (d.title ++ ['\n'] ++ joinSpace d.tags ++ ['\n'] ++ d.text)

/-- The score of a document for normalized query `q`:
`hay.split(q).length - 1`. -/
def scoreOf (q : Str) (d : LoadedDoc) : Nat :=
  (jsSplit q (searchHay d)).length - 1

/-- Descending comparison on the score component: the order induced by the
JavaScript comparator `(a, b) => b.score - a.score`. -/
def scoreDescLE (a b : LoadedDoc × Nat) : Bool :=
  decide (b.2 ≤ a.2)

/-- Stable insertion of an element into a list sorted descending by score:
the element goes in front of the first entry whose score does not exceed
its own, so an earlier element is never moved behind an equal-scored later
one. -/
def insertByScore (x : LoadedDoc × Nat) :
    List (LoadedDoc × Nat) → List (LoadedDoc × Nat)
  | [] => [x]
  | y :: ys => if scoreDescLE x y then x :: y :: ys else y :: insertByScore x ys

/-- Model of the stable JavaScript `sort((a, b) => b.score - a.score)` as a
stable insertion sort (ECMAScript sort is required to be stable; see
`sortByScoreDesc_eq_mergeSort` for agreement with the library's stable
merge sort). -/
def sortByScoreDesc : List (LoadedDoc × Nat) → List (LoadedDoc × Nat)
  | [] => []
  | x :: xs => insertByScore x (sortByScoreDesc xs)

/-- The scored, filtered and stably sorted candidate list of `kbSearch`
for an already-normalized query `q`. -/
def searchScored (docs : List LoadedDoc) (q : Str) (corpus : Option Corpus) :
    List (LoadedDoc × Nat) :=
  sortByScoreDesc (((docs.filter (corpusMatch corpus)).map
    (fun d => (d, scoreOf q d))).filter (fun x => 0 < x.2))

/-- Projection of a scored document to the entry returned by `kbSearch`. -/
def searchEntryOf (x : LoadedDoc × Nat) : SearchEntry :=
  { id := x.1.id, title := x.1.title, corpus := x.1.corpus, tags := x.1.tags,
    score := x.2 }

/-- `kbList(corpus?, options?)` of the paginated revision: asserts the index
is loaded, applies the defaults `limit = 20`, `offset = 0`, filters by
corpus, slices, and reports the total count of matching documents. -/
def kbList (docs : List LoadedDoc) (corpus : Option Corpus)
    (limit? offset? : Option Nat) : Except Str ListResult :=
  if docs.length = 0 then .error notInitMsg
  else
    let limit := limit?.getD 20
    let offset := offset?.getD 0
    let filtered := docs.filter (corpusMatch corpus)
    let sliced := (filtered.drop offset).take limit
    .ok { total := filtered.length, limit := limit, offset := offset,
          results := sliced.map docSummary }

/-- `kbGet(id, format = "markdown")`: asserts the index is loaded, looks the
id up in `byId`, and throws for an unknown id. -/
def kbGet (docs : List LoadedDoc) (id : Str) (format : DocFormat) :
    Except Str GetResult :=
  if docs.length = 0 then .error notInitMsg
  else
    match byIdGet docs id with
    | none => .error (unknownIdMsg id)
    | some d =>
      match format with
      | .markdown =>
        .ok { id := d.id, title := d.title, corpus := d.corpus,
              format := .markdown, content := .markdown d.markdown }
      | .text =>
        .ok { id := d.id, title := d.title, corpus := d.corpus,
              format := .text, content := .text d.text }
      | .outline_json =>
        .ok { id := d.id, title := d.title, corpus := d.corpus,
              format := .outline_json, content := .outline d.outline }

/-- The stateful view of `kbGet`: the module state (the loaded `docs` list,
from which `byId` is derived) is threaded explicitly; the function body
never writes it. -/
def kbGetS (docs : List LoadedDoc) (id : Str) (format : DocFormat) :
    Except Str GetResult × List LoadedDoc :=
  (kbGet docs id format, docs)

/-- `kbSearch(query, corpus?, options?)` of the paginated revision:
normalizes the query by trim and lowercase, answers the empty query with a
zero-total empty page, otherwise scores each candidate by split-count over
the newline-joined haystack, keeps positive scores, sorts stably by score
descending, and paginates with defaults `limit = 20`, `offset = 0`. -/
def kbSearch (docs : List LoadedDoc) (query : Str) (corpus : Option Corpus)
    (limit? offset? : Option Nat) : Except Str SearchResult :=
  if docs.length = 0 then .error notInitMsg
  else
    let q := jsToLower (jsTrim query)
    let limit := limit?.getD 20
    let offset := offset?.getD 0
    if q = [] then
      .ok { query := query, corpus := corpusField corpus, total := 0,
            limit := limit, offset := offset, results := [] }
    else
      let scored := searchScored docs q corpus
      let sliced := (scored.drop offset).take limit
      .ok { query := query, corpus := corpusField corpus,
            total := scored.length, limit := limit, offset := offset,
            results := sliced.map searchEntryOf }

/-- `kbRender(query, audience)` of the paginated revision: searches the
audience corpus with `limit = 3`, and returns the ids of the (at most
three) hits of that page as `sources`. -/
def kbRender (docs : List LoadedDoc) (query : Str) (audience : Corpus) :
    Except Str RenderResult :=
  match kbSearch docs query (some audience) (some 3) none with
  | .error e => .error e
  | .ok search =>
    let top := search.results.take 3
    .ok { audience := audience, query := query, sources := top.map (fun r => r.id) }

/-! ### Index construction (loadManifest / loadCorpus / kbInit) -/

/-- One entry of a parsed manifest.  The paginated revision performs no
schema validation: ids and titles may be empty, and `tags` may be absent
(JSON `null`/missing), in which case `d.tags ?? []` applies. -/
structure ManifestDoc where
  id : Str
  title : Str
  file : Str
  tags : Option (List Str)
deriving DecidableEq, Repr

/-- A parsed manifest; only its `documents` array is consumed by this revision. -/
structure Manifest where
  documents : List ManifestDoc
deriving DecidableEq, Repr

/-- The external file system seen by one corpus: the outcome of reading and
JSON-parsing `manifest.json`, and the outcome of reading each referenced
file.  An `Except.error` models a thrown read or parse failure. -/
structure CorpusSource where
  manifest : Except Str Manifest
  readDocFile : Str → Except Str Str

/-- Build one loaded document from a manifest entry and its file contents,
with `tags ?? []` and the derived plain text.  The markdown-stripping
heuristics are the black-box normalization parameter `strip`; the outline
derivation is not needed by any claim and is likewise a parameter of the
build (`outlineOf`). -/
def mkLoadedDoc (strip : Str → Str) (outlineOf : Str → List Heading)
    (corpus : Corpus) (d : ManifestDoc) (markdown : Str) : LoadedDoc :=
  { id := d.id, corpus := corpus, title := d.title, tags := d.tags.getD [],
    file := d.file, markdown := markdown, text := strip markdown,
    outline := outlineOf markdown }

/-- The body of the `for` loop of `loadCorpus`: read each referenced file in
manifest order, failing the whole load on the first unreadable file. -/
def loadCorpusDocs (strip : Str → Str) (outlineOf : Str → List Heading)
    (src : CorpusSource) (corpus : Corpus) :
    List ManifestDoc → Except Str (List LoadedDoc)
  | [] => .ok []
  | d :: rest => do
    let markdown ← src.readDocFile d.file
    let tail ← loadCorpusDocs strip outlineOf src corpus rest
    .ok (mkLoadedDoc strip outlineOf corpus d markdown :: tail)

/-- `loadCorpus(corpus)`: read and parse the manifest, then load every
referenced file in manifest order. -/
def loadCorpus (strip : Str → Str) (outlineOf : Str → List Heading)
    (src : CorpusSource) (corpus : Corpus) : Except Str (List LoadedDoc) := do
  let manifest ← src.manifest
  loadCorpusDocs strip outlineOf src corpus manifest.documents

/-- `kbInit()`: load the human corpus, then the technical corpus, and only
then publish `docs = [...human, ...technical]` (with `byId` derived from
it).  Any failure propagates before anything is published, so no partial
index is ever visible. -/
def kbInit (strip : Str → Str) (outlineOf : Str → List Heading)
    (human technical : CorpusSource) : Except Str (List LoadedDoc) := do
  let h ← loadCorpus strip outlineOf human Corpus.human
  let t ← loadCorpus strip outlineOf technical Corpus.technical
  .ok (h ++ t)

/-! ### Specification reference definitions -/

/-- Modelled from the spec: the reference `search` of section 4.3, with the
haystack separator made explicit.  The spec's words: normalize the query
(trim, lowercase); if empty, return an empty, zero-total result; otherwise
build `haystack = lowercase(title + sep + joined tags + sep + plainText)`
per candidate (the spec writes a single space for `sep`), score it as the
count of non-overlapping occurrences of the normalized query, keep positive
scores, sort by score descending with ties broken by load order (a stable
sort), and paginate. -/
structure SearchRefOut where
  total : Nat
  page : List SearchEntry
deriving DecidableEq, Repr

/-- Modelled from the spec: see `SearchRefOut`. -/
def searchRef (sep : Str) (docs : List LoadedDoc) (query : Str)
    (corpus : Option Corpus) (limit offset : Nat) : SearchRefOut :=
  let nq := jsToLower (jsTrim query)
  if nq = [] then { total := 0, page := [] }
  else
    let scored :=
      ((docs.filter (corpusMatch corpus)).map (fun d =>
        (d, countOcc nq
              (jsToLower (d.title ++ sep ++ joinSpace d.tags ++ sep ++ d.text))))).filter
        (fun x => 0 < x.2)
    let sorted := sortByScoreDesc scored
    { total := scored.length,
      page := ((sorted.drop offset).take limit).map searchEntryOf }

/-! ### Access-policy engine (server, part_000) -/

/-- Corpus access mode (`kb_corpus_policy.mode`). -/
inductive PolicyMode where
  | public
  | gated
  | internal
deriving DecidableEq, Repr

/-- Requester status (`kb_requesters.status`). -/
inductive TrustStatus where
  | active
  | blocked
deriving DecidableEq, Repr

/-- A row of `kb_corpus_policy`.  The JavaScript reads
`Number(data.min_trust ?? 0)` and `data.mode ?? "public"`; rows are
modelled with their fields already total, and numeric trust values as
integers (the code only compares and interpolates them). -/
structure PolicyRow where
  min_trust : Int
  mode : PolicyMode
deriving DecidableEq, Repr

/-- A row of `kb_requesters`, modelled like `PolicyRow`. -/
structure TrustRow where
  trust_score : Int
  status : TrustStatus
deriving DecidableEq, Repr

/-- `getCorpusPolicy`: a single-row lookup; `none` models
`error || !data` (store failure or missing row) and yields the fail-open
default `{min_trust: 0, mode: "public"}`. -/
def getCorpusPolicy (store : Corpus → Option PolicyRow) (corpus : Corpus) :
    PolicyRow :=
  match store corpus with
  | none => { min_trust := 0, mode := .public }
  | some row => row

/-- `getRequesterTrust`: a single-row lookup; `none` models
`error || !data` and yields the default `{trust_score: 0, status: "active"}`. -/
def getRequesterTrust (store : Str → Str → Option TrustRow)
    (requester_type requester_id : Str) : TrustRow :=
  match store requester_type requester_id with
  | none => { trust_score := 0, status := .active }
  | some row => row

/-- The access decision `{ok, reason}` returned by `enforceKbAccess`. -/
structure AccessDecision where
  ok : Bool
  reason : Str
deriving DecidableEq, Repr

/-- Decimal rendering of an integer, modelling template interpolation of a
JavaScript integer value. -/
def intStr (i : Int) : Str :=
  (toString i).toList

/-- `enforceKbAccess`: look up the corpus policy and the requester trust
(with their defaults), deny a blocked requester, deny a trust score below
the corpus threshold, and allow otherwise. -/
def enforceKbAccess (pstore : Corpus → Option PolicyRow)
    (tstore : Str → Str → Option TrustRow)
    (requester_type requester_id : Str) (corpus : Corpus) : AccessDecision :=
  let policy := getCorpusPolicy pstore corpus
  let requester := getRequesterTrust tstore requester_type requester_id
  if requester.status = .blocked then
    { ok := false, reason := ("requester_blocked").toList }
  else if requester.trust_score < policy.min_trust then
    { ok := false, reason := ("trust_below_threshold:").toList ++ intStr policy.min_trust }
  else
    { ok := true, reason := ("allowed").toList }

/-- Modelled from the spec: the five-step reference decision of section 4.2,
written from the spec's words.  Step 1: corpus-policy lookup, defaulting to
`{minTrust: 0, mode: public}` on failure.  Step 2: requester-trust lookup,
defaulting to `{trustScore: 0, status: active}` on failure.  Step 3: blocked
status denies with reason `requester_blocked`.  Step 4: a trust score below
the threshold denies with reason `trust_below_threshold:<minTrust>`.
Step 5: otherwise allow with reason `allowed`. -/
def enforceSpecRef (pstore : Corpus → Option PolicyRow)
    (tstore : Str → Str → Option TrustRow)
    (requester_type requester_id : Str) (corpus : Corpus) : AccessDecision :=
  let policy : PolicyRow :=
    match pstore corpus with
    | none => { min_trust := 0, mode := .public }
    | some p => p
  let requester : TrustRow :=
    match tstore requester_type requester_id with
    | none => { trust_score := 0, status := .active }
    | some r => r
  if requester.status = .blocked then
    { ok := false, reason := ("requester_blocked").toList }
  else if requester.trust_score < policy.min_trust then
    { ok := false, reason := ("trust_below_threshold:").toList ++ intStr policy.min_trust }
  else
    { ok := true, reason := ("allowed").toList }

/-! ### Audit logger (logKbAccess) -/

/-- The row inserted into `kb_access_logs`. -/
structure AuditRecord where
  requester_type : Str
  requester_id : Str
  source : Str
  session_id : Str
  corpus : Option Str
  doc_ids : Option (List Str)
  query : Option Str
  format : Option Str
  ok : Bool
  error : Option Str
deriving DecidableEq, Repr

/-- The parameters of `logKbAccess` (its `source` defaults to `"mcp"`). -/
structure LogParams where
  requester_type : Str
  requester_id : Str
  corpus : Option Str
  doc_ids : Option (List Str)
  query : Option Str
  format : Option Str
  ok : Bool
  error : Option Str
  source : Option Str
deriving DecidableEq, Repr

/-- The payload `logKbAccess` builds from its parameters and the session id. -/
def mkPayload (sessionId : Str) (p : LogParams) : AuditRecord :=
  { requester_type := p.requester_type, requester_id := p.requester_id,
    source := p.source.getD (("mcp").toList), session_id := sessionId,
    corpus := p.corpus, doc_ids := p.doc_ids, query := p.query,
    format := p.format, ok := p.ok, error := p.error }

/-- `logKbAccess`: insert the payload into the audit sink; a failed insert
(`some errMsg` from the sink) is only reported on the operational console,
never rethrown.  The function returns the attempted record together with
the console lines it produced. -/
def logKbAccess (sink : AuditRecord → Option Str) (sessionId : Str)
    (p : LogParams) : AuditRecord × List Str :=
  let payload := mkPayload sessionId p
  match sink payload with
  | some e =>
    (payload, [("kb_access_logs insert failed: ").toList ++ e])
  | none => (payload, [])

/-! ### Gated tool handlers (server, part_000) -/

/-- The observable result of one tool handler invocation.
`success` and `denied` and `errored` are responses produced by the handler
(`denied`/`errored` with `isError: true`); `thrown` is an exception that
escaped the handler (no response of its own was built). -/
inductive ToolRes (α : Type) where
  | success (val : α)
  | denied (reason : Str)
  | errored (msg : Str)
  | thrown (msg : Str)
deriving DecidableEq, Repr

/-- Whether a tool result is the success outcome. -/
def ToolRes.isSuccess : ToolRes α → Bool
  | .success _ => true
  | _ => false

/-- Whether a tool result is an exception that escaped the handler. -/
def ToolRes.isThrown : ToolRes α → Bool
  | .thrown _ => true
  | _ => false

/-- One handler invocation: its result, the audit records it wrote (in
order), and the operational console lines it produced. -/
structure ToolRun (α : Type) where
  res : ToolRes α
  audits : List AuditRecord
  console : List Str
deriving Repr

/-- The external collaborators and per-session data a handler sees: the
policy and trust stores, the audit sink, the session id, and the loaded
document index. -/
structure ServerEnv where
  pstore : Corpus → Option PolicyRow
  tstore : Str → Str → Option TrustRow
  sink : AuditRecord → Option Str
  sessionId : Str
  docs : List LoadedDoc

/-- Decimal rendering of a natural number. -/
def natStr (n : Nat) : Str :=
  (toString n).toList

/-- The `format` string logged by `kb_list`. -/
def listFmt (limit offset : Nat) : Str :=
  ("list(limit=").toList ++ natStr limit ++ (",offset=").toList ++ natStr offset
    ++ (")").toList

/-- The `format` string logged by `kb_search`. -/
def searchFmt (limit offset : Nat) : Str :=
  ("search(limit=").toList ++ natStr limit ++ (",offset=").toList ++ natStr offset
    ++ (")").toList

/-- The `kb_list` tool handler: default the corpus to `"human"` and the page
to `limit 20, offset 0`, enforce access against the effective corpus, audit
the denial or the success, and list.  The handler has no try/catch: an
exception from `kbList` escapes before any audit write. -/
def kbListTool (env : ServerEnv) (requester_type requester_id : Str)
    (corpus? : Option Corpus) (limit? offset? : Option Nat) : ToolRun ListResult :=
  let effectiveCorpus := corpus?.getD Corpus.human
  let effectiveLimit := limit?.getD 20
  let effectiveOffset := offset?.getD 0
  let access := enforceKbAccess env.pstore env.tstore requester_type requester_id
    effectiveCorpus
  if access.ok = false then
    let logged := logKbAccess env.sink env.sessionId
      { requester_type := requester_type, requester_id := requester_id,
        corpus := some (corpusStr effectiveCorpus), doc_ids := none,
        query := none, format := some (listFmt effectiveLimit effectiveOffset),
        ok := false, error := some access.reason, source := none }
    { res := .denied access.reason, audits := [logged.1], console := logged.2 }
  else
    match kbList env.docs (some effectiveCorpus) (some effectiveLimit)
        (some effectiveOffset) with
    | .error e => { res := .thrown e, audits := [], console := [] }
    | .ok items =>
      let logged := logKbAccess env.sink env.sessionId
        { requester_type := requester_type, requester_id := requester_id,
          corpus := some (corpusStr effectiveCorpus), doc_ids := none,
          query := none, format := some (listFmt effectiveLimit effectiveOffset),
          ok := true, error := none, source := none }
      { res := .success items, audits := [logged.1], console := logged.2 }

/-- The `kb_get` tool handler: everything runs inside a try/catch.  A first
`kbGet(id, "outline_json")` resolves the document's corpus; access is
enforced against it; the denial, the success and any caught exception each
write exactly one audit record, always carrying `[id]` in `doc_ids`. -/
def kbGetTool (env : ServerEnv) (requester_type requester_id : Str)
    (id : Str) (format? : Option DocFormat) : ToolRun GetResult :=
  match kbGet env.docs id DocFormat.outline_json with
  | .error e =>
    let logged := logKbAccess env.sink env.sessionId
      { requester_type := requester_type, requester_id := requester_id,
        corpus := none, doc_ids := some [id], query := none,
        format := format?.map fmtStr, ok := false, error := some e,
        source := none }
    { res := .errored e, audits := [logged.1], console := logged.2 }
  | .ok meta =>
    let inferredCorpus := meta.corpus
    let access := enforceKbAccess env.pstore env.tstore requester_type requester_id
      inferredCorpus
    if access.ok = false then
      let logged := logKbAccess env.sink env.sessionId
        { requester_type := requester_type, requester_id := requester_id,
          corpus := some (corpusStr inferredCorpus), doc_ids := some [id],
          query := none, format := format?.map fmtStr, ok := false,
          error := some access.reason, source := none }
      { res := .denied access.reason, audits := [logged.1], console := logged.2 }
    else
      match kbGet env.docs id (format?.getD DocFormat.markdown) with
      | .error e =>
        let logged := logKbAccess env.sink env.sessionId
          { requester_type := requester_type, requester_id := requester_id,
            corpus := none, doc_ids := some [id], query := none,
            format := format?.map fmtStr, ok := false, error := some e,
            source := none }
        { res := .errored e, audits := [logged.1], console := logged.2 }
      | .ok doc =>
        let logged := logKbAccess env.sink env.sessionId
          { requester_type := requester_type, requester_id := requester_id,
            corpus := some (corpusStr inferredCorpus), doc_ids := some [id],
            query := none,
            format := some (fmtStr (format?.getD DocFormat.markdown)),
            ok := true, error := none, source := none }
        { res := .success doc, audits := [logged.1], console := logged.2 }

/-- The `kb_search` tool handler: like `kb_list`, with the returned hit ids
(nonempty ones, capped at 50) logged as `doc_ids` on success.  No try/catch:
an exception from `kbSearch` escapes before any audit write. -/
def kbSearchTool (env : ServerEnv) (requester_type requester_id : Str)
    (query : Str) (corpus? : Option Corpus) (limit? offset? : Option Nat) :
    ToolRun SearchResult :=
  let effectiveCorpus := corpus?.getD Corpus.human
  let effectiveLimit := limit?.getD 20
  let effectiveOffset := offset?.getD 0
  let access := enforceKbAccess env.pstore env.tstore requester_type requester_id
    effectiveCorpus
  if access.ok = false then
    let logged := logKbAccess env.sink env.sessionId
      { requester_type := requester_type, requester_id := requester_id,
        corpus := some (corpusStr effectiveCorpus), doc_ids := none,
        query := some query,
        format := some (searchFmt effectiveLimit effectiveOffset),
        ok := false, error := some access.reason, source := none }
    { res := .denied access.reason, audits := [logged.1], console := logged.2 }
  else
    match kbSearch env.docs query (some effectiveCorpus) (some effectiveLimit)
        (some effectiveOffset) with
    | .error e => { res := .thrown e, audits := [], console := [] }
    | .ok results =>
      let docIds := ((results.results.map (fun r => r.id)).filter
        (fun s => !s.isEmpty)).take 50
      let logged := logKbAccess env.sink env.sessionId
        { requester_type := requester_type, requester_id := requester_id,
          corpus := some (corpusStr effectiveCorpus),
          doc_ids := if docIds.length ≠ 0 then some docIds else none,
          query := some query,
          format := some (searchFmt effectiveLimit effectiveOffset),
          ok := true, error := none, source := none }
      { res := .success results, audits := [logged.1], console := logged.2 }

/-- The `kb_render` tool handler: the audience is the effective corpus; the
rendered source ids (if any) are logged as `doc_ids` on success.  No
try/catch: an exception from `kbRender` escapes before any audit write. -/
def kbRenderTool (env : ServerEnv) (requester_type requester_id : Str)
    (query : Str) (audience : Corpus) : ToolRun RenderResult :=
  let effectiveCorpus := audience
  let access := enforceKbAccess env.pstore env.tstore requester_type requester_id
    effectiveCorpus
  if access.ok = false then
    let logged := logKbAccess env.sink env.sessionId
      { requester_type := requester_type, requester_id := requester_id,
        corpus := some (corpusStr effectiveCorpus), doc_ids := none,
        query := some query, format := some (("render").toList),
        ok := false, error := some access.reason, source := none }
    { res := .denied access.reason, audits := [logged.1], console := logged.2 }
  else
    match kbRender env.docs query audience with
    | .error e => { res := .thrown e, audits := [], console := [] }
    | .ok rendered =>
      let sources := rendered.sources
      let logged := logKbAccess env.sink env.sessionId
        { requester_type := requester_type, requester_id := requester_id,
          corpus := some (corpusStr effectiveCorpus),
          doc_ids := if sources.length ≠ 0 then some sources else none,
          query := some query, format := some (("render").toList),
          ok := true, error := none, source := none }
      { res := .success rendered, audits := [logged.1], console := logged.2 }

/-! ### Session gate (POST /mcp) -/

/-- The shape of a parsed JSON-RPC body, as far as the session gate
inspects it: an object with optional `jsonrpc` and `method` members, an
array, or any other JSON value. -/
inductive JsonLite where
  | obj (jsonrpc : Option Str) (method : Option Str)
  | arr (xs : List JsonLite)
  | prim

/-- Whether one parsed value is an initialize call:
`x?.jsonrpc === "2.0" && x?.method === "initialize"`. -/
def isInitMsg : JsonLite → Bool
  | .obj jsonrpc method =>
    jsonrpc == some (("2.0").toList) && method == some (("initialize").toList)
  | _ => false

/-- `isInitialize(parsedBody)`: `false` for an absent body, an
element-wise check for a batch array, and a direct check otherwise. -/
def isInitialize : Option JsonLite → Bool
  | none => false
  | some (.arr xs) => xs.any isInitMsg
  | some v => isInitMsg v

/-- `getSessionId(req)`: the trimmed `mcp-session-id` header, or `none`
when the header is absent or blank. -/
def getSessionId (header : Option Str) : Option Str :=
  match header with
  | none => none
  | some v => if jsTrim v ≠ [] then some (jsTrim v) else none

/-- The decision taken by the `POST /mcp` route for a parsed body. -/
inductive McpRoute where
  | dispatch (sid : Str)
  | createSession
  | reject400
deriving DecidableEq, Repr

/-- The `POST /mcp` gate over a parsed body: dispatch to a live session
when the token matches one; create a session only when no token was sent
and the payload is (or contains) an initialize call; reject everything
else with HTTP 400 before any tool dispatch. -/
def mcpPostRoute (live : Str → Bool) (token : Option Str)
    (payload : Option JsonLite) : McpRoute :=
  match token with
  | some sid => if live sid then .dispatch sid else .reject400
  | none => if isInitialize payload then .createSession else .reject400

/-! ### Supporting lemmas -/

theorem scoreDescLE_trans (a b c : LoadedDoc × Nat) :
    scoreDescLE a b → scoreDescLE b c → scoreDescLE a c := by
  simp only [scoreDescLE, decide_eq_true_eq]
  omega

theorem scoreDescLE_total (a b : LoadedDoc × Nat) :
    scoreDescLE a b || scoreDescLE b a := by
  simp only [scoreDescLE]
  by_cases h : b.2 ≤ a.2 <;> simp [h] <;> omega

theorem insertByScore_append (x : LoadedDoc × Nat) (l₁ l₂ : List (LoadedDoc × Nat))
    (h₁ : ∀ b ∈ l₁, scoreDescLE x b = false)
    (h₂ : ∀ y, l₂.head? = some y → scoreDescLE x y = true) :
    insertByScore x (l₁ ++ l₂) = l₁ ++ x :: l₂ := by
  induction l₁ with
  | nil =>
    cases l₂ with
    | nil => rfl
    | cons y ys => simp [insertByScore, h₂ y rfl]
  | cons b bs ih =>
    simp only [List.cons_append, insertByScore, h₁ b (List.mem_cons_self b bs),
      if_false, Bool.false_eq_true, List.append_eq]
    rw [ih (fun z hz => h₁ z (List.mem_cons_of_mem b hz))]

/-- The stable insertion sort used in the embedding agrees with the
library's stable merge sort under the descending score order, so it is
exactly the stable descending sort of the candidate list. -/
theorem sortByScoreDesc_eq_mergeSort (l : List (LoadedDoc × Nat)) :
    sortByScoreDesc l = l.mergeSort scoreDescLE := by
  induction l with
  | nil => simp [sortByScoreDesc]
  | cons x xs ih =>
    obtain ⟨l₁, l₂, hms, hxs, hl₁⟩ :=
      List.mergeSort_cons scoreDescLE_trans scoreDescLE_total x xs
    rw [sortByScoreDesc, ih, hxs, hms]
    apply insertByScore_append
    · intro b hb
      have := hl₁ b hb
      simpa using this
    · intro y hy
      have hs := List.sorted_mergeSort scoreDescLE_trans scoreDescLE_total (x :: xs)
      rw [hms] at hs
      have hp : (x :: l₂).Pairwise (fun a b => scoreDescLE a b) :=
        hs.sublist ((List.sublist_append_right l₁ (x :: l₂)))
      exact (List.pairwise_cons.mp hp).1 y (List.mem_of_mem_head? hy)

/-! ### Claim theorems -/

/-- C1: for every requester type, requester id and corpus, `enforceKbAccess`
returns exactly the five-step reference decision of the specification
(lookup failures default to `{minTrust: 0, mode: public}` and
`{trustScore: 0, status: active}`; a blocked status denies with reason
`requester_blocked` before the threshold is even consulted; a trust score
below the threshold denies with reason `trust_below_threshold:<minTrust>`;
otherwise the access is allowed with reason `allowed`). -/
theorem enforce_matches_spec (pstore : Corpus → Option PolicyRow)
    (tstore : Str → Str → Option TrustRow) (rt rid : Str) (c : Corpus) :
    enforceKbAccess pstore tstore rt rid c = enforceSpecRef pstore tstore rt rid c ∧
    ((getRequesterTrust tstore rt rid).status = .blocked →
      enforceKbAccess pstore tstore rt rid c =
        { ok := false, reason := ("requester_blocked").toList }) := by
  constructor
  · rfl
  · intro hblocked
    simp [enforceKbAccess, hblocked]

/-- Witness for C1: a blocked requester is denied with reason
`requester_blocked` even though its trust score is far below the corpus
threshold, i.e. the status check fires first. -/
theorem enforce_matches_spec_witness :
    enforceKbAccess (fun _ => some { min_trust := 5, mode := .gated })
      (fun _ _ => some { trust_score := 0, status := .blocked })
      (("agent").toList) (("A1").toList) Corpus.technical =
      { ok := false, reason := ("requester_blocked").toList } :=
  (enforce_matches_spec (fun _ => some { min_trust := 5, mode := .gated })
    (fun _ _ => some { trust_score := 0, status := .blocked })
    (("agent").toList) (("A1").toList) Corpus.technical).2 rfl

/-- C3: a POST /mcp request whose token matches no live session is rejected
with the protocol-level 400 before any dispatch; so is a token-less request
whose payload neither is nor contains an initialize call; and a session is
created exactly when no token was supplied and the payload is or contains
an initialize call. -/
theorem mcp_post_gate (live : Str → Bool) (header : Option Str)
    (payload : Option JsonLite) :
    (∀ t, getSessionId header = some t → live t = false →
      mcpPostRoute live (getSessionId header) payload = .reject400) ∧
    (getSessionId header = none → isInitialize payload = false →
      mcpPostRoute live (getSessionId header) payload = .reject400) ∧
    (mcpPostRoute live (getSessionId header) payload = .createSession ↔
      getSessionId header = none ∧ isInitialize payload = true) := by
  refine ⟨?_, ?_, ?_⟩
  · intro t ht hlive
    rw [ht]
    simp [mcpPostRoute, hlive]
  · intro hnone hinit
    rw [hnone]
    simp [mcpPostRoute, hinit]
  · cases hgs : getSessionId header with
    | some t =>
      simp only [mcpPostRoute]
      constructor
      · intro h
        by_cases hl : live t <;> simp [hl] at h
      · intro h
        exact absurd h.1 (by simp)
    | none =>
      simp only [mcpPostRoute]
      cases hinit : isInitialize payload <;> simp

/-- Witness for C3: a request carrying the token `abc` against a registry
with no live sessions is rejected with 400. -/
theorem mcp_post_gate_witness :
    mcpPostRoute (fun _ => false) (getSessionId (some (("abc").toList))) none =
      .reject400 :=
  (mcp_post_gate (fun _ => false) (some (("abc").toList)) none).1
    (("abc").toList) rfl rfl

/-- A concrete loaded document used by witnesses. -/
def docAlpha : LoadedDoc :=
  { id := ("alpha").toList, corpus := .human, title := ("Alpha").toList,
    tags := [], file := ("a.md").toList, markdown := [],
    text := ("alpha text").toList, outline := [] }

/-- C7 (amended): on a nonempty built index, `kbGet` with an absent id
fails with the NotFound error `Unknown document id: <id>` and leaves the
index state unchanged. -/
theorem kb_get_unknown_id (docs : List LoadedDoc) (id : Str) (format : DocFormat)
    (hd : docs ≠ []) (hid : byIdGet docs id = none) :
    kbGetS docs id format = (.error (unknownIdMsg id), docs) := by
  have hlen : ¬ docs.length = 0 := by
    simpa [List.length_eq_zero] using hd
  unfold kbGetS kbGet
  rw [if_neg hlen, hid]

/-- Counterexample for C7 as stated: the empty index is a possible result
of a successful build (both manifests listing no documents), and on it
`kbGet` fails with the not-initialized assertion message, which is not the
NotFound error the claim promises for an unknown id. -/
theorem kb_get_empty_index_counterexample :
    (kbGetS [] (("x").toList) DocFormat.markdown).1 = .error notInitMsg ∧
    notInitMsg ≠ unknownIdMsg (("x").toList) := by
  constructor
  · rfl
  · decide

/-- Witness for C7: on a one-document index, getting the absent id `zzz`
fails with `Unknown document id: zzz` and the index is untouched. -/
theorem kb_get_unknown_id_witness :
    kbGetS [docAlpha] (("zzz").toList) DocFormat.markdown =
      (.error (unknownIdMsg (("zzz").toList)), [docAlpha]) :=
  kb_get_unknown_id [docAlpha] (("zzz").toList) DocFormat.markdown
    (by decide) (by decide)

/-- The record attempted by `logKbAccess` is always the full payload,
whatever the sink outcome. -/
theorem logKbAccess_fst (sink : AuditRecord → Option Str) (sid : Str)
    (p : LogParams) : (logKbAccess sink sid p).1 = mkPayload sid p := by
  simp only [logKbAccess]
  cases hs : sink (mkPayload sid p) <;> simp [hs]

/-- C8: `logKbAccess` never raises back to its caller — for every sink
outcome it returns normally, with an operational console line exactly when
the sink append failed — and consequently a failed audit append never
changes the tool-level result (nor the audited record) of any of the four
gated handlers: the runs differ at most in their console output. -/
theorem audit_write_isolated :
    (∀ sink sid p, (logKbAccess sink sid p).1 = mkPayload sid p ∧
      ((logKbAccess sink sid p).2 = [] ↔ sink (mkPayload sid p) = none)) ∧
    (∀ env sink2 rt rid c? l? o?,
      (kbListTool { env with sink := sink2 } rt rid c? l? o?).res =
        (kbListTool env rt rid c? l? o?).res ∧
      (kbListTool { env with sink := sink2 } rt rid c? l? o?).audits =
        (kbListTool env rt rid c? l? o?).audits) ∧
    (∀ env sink2 rt rid id f?,
      (kbGetTool { env with sink := sink2 } rt rid id f?).res =
        (kbGetTool env rt rid id f?).res ∧
      (kbGetTool { env with sink := sink2 } rt rid id f?).audits =
        (kbGetTool env rt rid id f?).audits) ∧
    (∀ env sink2 rt rid q c? l? o?,
      (kbSearchTool { env with sink := sink2 } rt rid q c? l? o?).res =
        (kbSearchTool env rt rid q c? l? o?).res ∧
      (kbSearchTool { env with sink := sink2 } rt rid q c? l? o?).audits =
        (kbSearchTool env rt rid q c? l? o?).audits) ∧
    (∀ env sink2 rt rid q a,
      (kbRenderTool { env with sink := sink2 } rt rid q a).res =
        (kbRenderTool env rt rid q a).res ∧
      (kbRenderTool { env with sink := sink2 } rt rid q a).audits =
        (kbRenderTool env rt rid q a).audits) := by
  refine ⟨?_, ?_, ?_, ?_, ?_⟩
  · intro sink sid p
    refine ⟨logKbAccess_fst sink sid p, ?_⟩
    simp only [logKbAccess]
    cases hs : sink (mkPayload sid p) <;> simp [hs]
  · intro env sink2 rt rid c? l? o?
    simp only [kbListTool]
    by_cases hacc :
        (enforceKbAccess env.pstore env.tstore rt rid (c?.getD Corpus.human)).ok = false
    · simp [hacc, logKbAccess_fst]
    · cases hkb : kbList env.docs (some (c?.getD Corpus.human)) (some (l?.getD 20))
          (some (o?.getD 0)) <;>
        simp [hacc, hkb, logKbAccess_fst]
  · intro env sink2 rt rid id f?
    simp only [kbGetTool]
    cases hg : kbGet env.docs id DocFormat.outline_json with
    | error e => simp [logKbAccess_fst]
    | ok meta =>
      by_cases hacc :
          (enforceKbAccess env.pstore env.tstore rt rid meta.corpus).ok = false
      · simp [hacc, logKbAccess_fst]
      · cases hg2 : kbGet env.docs id (f?.getD DocFormat.markdown) <;>
          simp [hacc, hg2, logKbAccess_fst]
  · intro env sink2 rt rid q c? l? o?
    simp only [kbSearchTool]
    by_cases hacc :
        (enforceKbAccess env.pstore env.tstore rt rid (c?.getD Corpus.human)).ok = false
    · simp [hacc, logKbAccess_fst]
    · cases hkb : kbSearch env.docs q (some (c?.getD Corpus.human)) (some (l?.getD 20))
          (some (o?.getD 0)) <;>
        simp [hacc, hkb, logKbAccess_fst]
  · intro env sink2 rt rid q a
    simp only [kbRenderTool]
    by_cases hacc : (enforceKbAccess env.pstore env.tstore rt rid a).ok = false
    · simp [hacc, logKbAccess_fst]
    · cases hkb : kbRender env.docs q a <;>
        simp [hacc, hkb, logKbAccess_fst]

/-- Every summary on a `kbList` page for an explicit corpus carries that
corpus. -/
theorem kbList_ok_corpus (docs : List LoadedDoc) (c : Corpus)
    (l? o? : Option Nat) (r : ListResult)
    (h : kbList docs (some c) l? o? = .ok r) :
    r.results.all (fun s => s.corpus == c) = true := by
  unfold kbList at h
  split at h
  · exact absurd h (by simp)
  · simp only [Except.ok.injEq] at h
    subst h
    simp only [List.all_eq_true]
    intro s hs
    simp only [List.mem_map] at hs
    obtain ⟨d, hd, rfl⟩ := hs
    have hdf : d ∈ docs.filter (corpusMatch (some c)) :=
      (List.drop_subset _ _) ((List.take_subset _ _) hd)
    have hp := (List.mem_filter.mp hdf).2
    simpa [docSummary, corpusMatch] using hp

/-- Every hit on a `kbSearch` page for an explicit corpus carries that
corpus. -/
theorem kbSearch_ok_corpus (docs : List LoadedDoc) (q : Str) (c : Corpus)
    (l? o? : Option Nat) (r : SearchResult)
    (h : kbSearch docs q (some c) l? o? = .ok r) :
    r.results.all (fun e => e.corpus == c) = true := by
  simp only [kbSearch] at h
  split at h
  · exact absurd h (by simp)
  · split at h <;> simp only [Except.ok.injEq] at h <;> subst h
    · simp
    · simp only [List.all_eq_true]
      intro e he
      simp only [List.mem_map] at he
      obtain ⟨x, hx, rfl⟩ := he
      have hms : x ∈ searchScored docs (jsToLower (jsTrim q)) (some c) :=
        (List.drop_subset _ _) ((List.take_subset _ _) hx)
      rw [searchScored, sortByScoreDesc_eq_mergeSort, List.mem_mergeSort] at hms
      have hxf := (List.mem_filter.mp hms).1
      simp only [List.mem_map] at hxf
      obtain ⟨d, hd, rfl⟩ := hxf
      have hp := (List.mem_filter.mp hd).2
      simpa [searchEntryOf, corpusMatch] using hp

/-- Whether every listed summary of a successful run carries corpus `c`
(vacuously true for non-success results). -/
def listRunAll (run : ToolRun ListResult) (c : Corpus) : Bool :=
  match run.res with
  | .success items => items.results.all (fun s => s.corpus == c)
  | _ => true

/-- Whether every search hit of a successful run carries corpus `c`
(vacuously true for non-success results). -/
def searchRunAll (run : ToolRun SearchResult) (c : Corpus) : Bool :=
  match run.res with
  | .success r => r.results.all (fun e => e.corpus == c)
  | _ => true

/-- C10: for `kb_list` and `kb_search`, omitting the optional corpus is
the same invocation as passing `"human"` (the same policy is enforced and
the same documents are consulted), and every invocation only ever returns
documents of its single effective corpus — never both corpora at once. -/
theorem kb_tools_default_corpus_human (env : ServerEnv) :
    (∀ rt rid l? o?, kbListTool env rt rid none l? o? =
      kbListTool env rt rid (some Corpus.human) l? o?) ∧
    (∀ rt rid q l? o?, kbSearchTool env rt rid q none l? o? =
      kbSearchTool env rt rid q (some Corpus.human) l? o?) ∧
    (∀ rt rid c? l? o?,
      listRunAll (kbListTool env rt rid c? l? o?) (c?.getD Corpus.human) = true) ∧
    (∀ rt rid q c? l? o?,
      searchRunAll (kbSearchTool env rt rid q c? l? o?) (c?.getD Corpus.human) = true) := by
  refine ⟨fun rt rid l? o? => rfl, fun rt rid q l? o? => rfl, ?_, ?_⟩
  · intro rt rid c? l? o?
    simp only [kbListTool, listRunAll]
    by_cases hacc :
        (enforceKbAccess env.pstore env.tstore rt rid (c?.getD Corpus.human)).ok = false
    · simp [hacc]
    · cases hkb : kbList env.docs (some (c?.getD Corpus.human)) (some (l?.getD 20))
          (some (o?.getD 0)) with
      | error e => simp [hacc, hkb]
      | ok items =>
        simp only [hacc, if_false, Bool.false_eq_true, hkb]
        exact kbList_ok_corpus env.docs (c?.getD Corpus.human) _ _ items hkb
  · intro rt rid q c? l? o?
    simp only [kbSearchTool, searchRunAll]
    by_cases hacc :
        (enforceKbAccess env.pstore env.tstore rt rid (c?.getD Corpus.human)).ok = false
    · simp [hacc]
    · cases hkb : kbSearch env.docs q (some (c?.getD Corpus.human)) (some (l?.getD 20))
          (some (o?.getD 0)) with
      | error e => simp [hacc, hkb]
      | ok results =>
        simp only [hacc, if_false, Bool.false_eq_true, hkb]
        exact kbSearch_ok_corpus env.docs q (c?.getD Corpus.human) _ _ results hkb

/-- Sorting does not change the number of scored hits. -/
theorem length_sortByScoreDesc (l : List (LoadedDoc × Nat)) :
    (sortByScoreDesc l).length = l.length := by
  rw [sortByScoreDesc_eq_mergeSort]
  simp

/-- C4 (amended): on a nonempty index, `kbSearch` equals the
specification's reference search with the haystack joined by NEWLINES
(the code's template literal), not by spaces: trim-lowercase
normalization, empty query answered with a zero-total empty page,
occurrence-count scoring, positive scores only, stable descending sort,
pagination. -/
theorem kb_search_matches_ref (docs : List LoadedDoc) (query : Str)
    (corpus : Option Corpus) (limit offset : Nat) (hd : docs ≠ []) :
    kbSearch docs query corpus (some limit) (some offset) =
      .ok { query := query, corpus := corpusField corpus,
            total := (searchRef ['\n'] docs query corpus limit offset).total,
            limit := limit, offset := offset,
            results := (searchRef ['\n'] docs query corpus limit offset).page } := by
  have hlen : ¬ docs.length = 0 := by
    simpa [List.length_eq_zero] using hd
  simp only [kbSearch, searchRef, searchScored, if_neg hlen, Option.getD_some]
  by_cases hq : jsToLower (jsTrim query) = []
  · simp [hq]
  · simp only [if_neg hq]
    have hmap : (docs.filter (corpusMatch corpus)).map
          (fun d => (d, scoreOf (jsToLower (jsTrim query)) d)) =
        (docs.filter (corpusMatch corpus)).map (fun d =>
          (d, countOcc (jsToLower (jsTrim query))
            (jsToLower (d.title ++ ['\n'] ++ joinSpace d.tags ++ ['\n'] ++ d.text)))) := by
      apply List.map_congr_left
      intro d _
      have hsc : scoreOf (jsToLower (jsTrim query)) d =
          countOcc (jsToLower (jsTrim query))
            (jsToLower (d.title ++ ['\n'] ++ joinSpace d.tags ++ ['\n'] ++ d.text)) := by
        simp only [scoreOf, searchHay]
        exact jsSplit_length_sub_one _ _ hq
      rw [hsc]
    rw [hmap, length_sortByScoreDesc]

/-- A document whose space-joined haystack matches the query `a b` across
the title/tag boundary while the code's newline-joined haystack does not. -/
def docSepC : LoadedDoc :=
  { id := ("d1").toList, corpus := .human, title := ("a").toList,
    tags := [("b").toList], file := ("f").toList, markdown := [], text := [],
    outline := [] }

/-- Total of a search outcome, `none` on a thrown error. -/
def searchTotal : Except Str SearchResult → Option Nat
  | .ok r => some r.total
  | .error _ => none

/-- Counterexample for C4 as stated: with the space-joined haystack the
specification's reference search finds the query `a b` once in the
document `docSepC` (haystack `a b `), but the code's newline-joined
haystack (`a\nb\n`) yields no hit, so `kbSearch` does not equal the
space-separator reference. -/
theorem kb_search_space_sep_counterexample :
    searchTotal (kbSearch [docSepC] (("a b").toList) none (some 20) (some 0)) =
      some 0 ∧
    (searchRef [' '] [docSepC] (("a b").toList) none 20 0).total = 1 := by
  constructor
  · rfl
  · rfl

/-- Witness for C4: a one-document index searched for `alpha` matches the
newline-separator reference search. -/
theorem kb_search_matches_ref_witness :
    kbSearch [docAlpha] (("alpha").toList) none (some 20) (some 0) =
      .ok { query := ("alpha").toList, corpus := corpusField none,
            total := (searchRef ['\n'] [docAlpha] (("alpha").toList) none 20 0).total,
            limit := 20, offset := 0,
            results := (searchRef ['\n'] [docAlpha] (("alpha").toList) none 20 0).page } :=
  kb_search_matches_ref [docAlpha] (("alpha").toList) none 20 0 (by decide)

/-- On a nonempty index `kbList` never throws. -/
theorem kbList_ok_of_ne (docs : List LoadedDoc) (corpus : Option Corpus)
    (l? o? : Option Nat) (hd : docs ≠ []) :
    ∃ r, kbList docs corpus l? o? = .ok r := by
  have hlen : ¬ docs.length = 0 := by
    simpa [List.length_eq_zero] using hd
  unfold kbList
  rw [if_neg hlen]
  exact ⟨_, rfl⟩

/-- On a nonempty index `kbSearch` never throws. -/
theorem kbSearch_ok_of_ne (docs : List LoadedDoc) (q : Str)
    (corpus : Option Corpus) (l? o? : Option Nat) (hd : docs ≠ []) :
    ∃ r, kbSearch docs q corpus l? o? = .ok r := by
  have hlen : ¬ docs.length = 0 := by
    simpa [List.length_eq_zero] using hd
  simp only [kbSearch, if_neg hlen]
  by_cases hq : jsToLower (jsTrim q) = []
  · rw [if_pos hq]
    exact ⟨_, rfl⟩
  · rw [if_neg hq]
    exact ⟨_, rfl⟩

/-- On a nonempty index `kbRender` never throws. -/
theorem kbRender_ok_of_ne (docs : List LoadedDoc) (q : Str) (a : Corpus)
    (hd : docs ≠ []) : ∃ r, kbRender docs q a = .ok r := by
  obtain ⟨s, hs⟩ := kbSearch_ok_of_ne docs q (some a) (some 3) none hd
  unfold kbRender
  rw [hs]
  exact ⟨_, rfl⟩

/-- One audit record was written and its `ok` field reflects the true
outcome of the run. -/
def auditOnceOk {α : Type} (run : ToolRun α) : Prop :=
  run.audits.length = 1 ∧ ∀ r ∈ run.audits, r.ok = run.res.isSuccess

/-- C2 (amended): `kb_get` writes exactly one audit record on denial,
operation error and success alike, with `ok` matching the outcome and the
requested id always recorded in `doc_ids`; `kb_list`, `kb_search` and
`kb_render` write exactly one matching record whenever the index is
nonempty (and on every denial), but when the operation itself throws —
possible only via the not-initialized assertion on an empty index — the
exception escapes those handlers before any audit write, so no record is
written. -/
theorem gated_tools_audit (env : ServerEnv) :
    (∀ rt rid id f?, auditOnceOk (kbGetTool env rt rid id f?) ∧
      (kbGetTool env rt rid id f?).audits.map (fun r => r.doc_ids) = [some [id]]) ∧
    (∀ rt rid c? l? o?,
      (env.docs ≠ [] → auditOnceOk (kbListTool env rt rid c? l? o?)) ∧
      ((kbListTool env rt rid c? l? o?).res.isThrown = true →
        (kbListTool env rt rid c? l? o?).audits = [])) ∧
    (∀ rt rid q c? l? o?,
      (env.docs ≠ [] → auditOnceOk (kbSearchTool env rt rid q c? l? o?)) ∧
      ((kbSearchTool env rt rid q c? l? o?).res.isThrown = true →
        (kbSearchTool env rt rid q c? l? o?).audits = [])) ∧
    (∀ rt rid q a,
      (env.docs ≠ [] → auditOnceOk (kbRenderTool env rt rid q a)) ∧
      ((kbRenderTool env rt rid q a).res.isThrown = true →
        (kbRenderTool env rt rid q a).audits = [])) := by
  refine ⟨?_, ?_, ?_, ?_⟩
  · intro rt rid id f?
    simp only [kbGetTool, auditOnceOk]
    cases hg : kbGet env.docs id DocFormat.outline_json with
    | error e => simp [logKbAccess_fst, mkPayload, ToolRes.isSuccess]
    | ok meta =>
      by_cases hacc :
          (enforceKbAccess env.pstore env.tstore rt rid meta.corpus).ok = false
      · simp [hacc, logKbAccess_fst, mkPayload, ToolRes.isSuccess]
      · cases hg2 : kbGet env.docs id (f?.getD DocFormat.markdown) <;>
          simp [hacc, hg2, logKbAccess_fst, mkPayload, ToolRes.isSuccess]
  · intro rt rid c? l? o?
    simp only [kbListTool, auditOnceOk]
    by_cases hacc :
        (enforceKbAccess env.pstore env.tstore rt rid (c?.getD Corpus.human)).ok = false
    · simp [hacc, logKbAccess_fst, mkPayload, ToolRes.isSuccess, ToolRes.isThrown]
    · constructor
      · intro hd
        obtain ⟨r, hr⟩ := kbList_ok_of_ne env.docs (some (c?.getD Corpus.human))
          (some (l?.getD 20)) (some (o?.getD 0)) hd
        simp [hacc, hr, logKbAccess_fst, mkPayload, ToolRes.isSuccess]
      · cases hkb : kbList env.docs (some (c?.getD Corpus.human)) (some (l?.getD 20))
            (some (o?.getD 0)) <;>
          simp [hacc, hkb, ToolRes.isThrown]
  · intro rt rid q c? l? o?
    simp only [kbSearchTool, auditOnceOk]
    by_cases hacc :
        (enforceKbAccess env.pstore env.tstore rt rid (c?.getD Corpus.human)).ok = false
    · simp [hacc, logKbAccess_fst, mkPayload, ToolRes.isSuccess, ToolRes.isThrown]
    · constructor
      · intro hd
        obtain ⟨r, hr⟩ := kbSearch_ok_of_ne env.docs q (some (c?.getD Corpus.human))
          (some (l?.getD 20)) (some (o?.getD 0)) hd
        simp [hacc, hr, logKbAccess_fst, mkPayload, ToolRes.isSuccess]
      · cases hkb : kbSearch env.docs q (some (c?.getD Corpus.human)) (some (l?.getD 20))
            (some (o?.getD 0)) <;>
          simp [hacc, hkb, ToolRes.isThrown]
  · intro rt rid q a
    simp only [kbRenderTool, auditOnceOk]
    by_cases hacc : (enforceKbAccess env.pstore env.tstore rt rid a).ok = false
    · simp [hacc, logKbAccess_fst, mkPayload, ToolRes.isSuccess, ToolRes.isThrown]
    · constructor
      · intro hd
        obtain ⟨r, hr⟩ := kbRender_ok_of_ne env.docs q a hd
        simp [hacc, hr, logKbAccess_fst, mkPayload, ToolRes.isSuccess]
      · cases hkb : kbRender env.docs q a <;>
          simp [hacc, hkb, ToolRes.isThrown]

/-- A server environment whose index is empty (both manifests listed no
documents) and whose stores allow everyone. -/
def envEmptyKb : ServerEnv :=
  { pstore := fun _ => none, tstore := fun _ _ => none, sink := fun _ => none,
    sessionId := ("s1").toList, docs := [] }

/-- Counterexample for C2 as stated: on the empty index an allowed
`kb_list` invocation hits the not-initialized assertion, the exception
escapes the handler, and zero audit records are written instead of the
exactly one the claim demands. -/
theorem gated_tools_audit_counterexample :
    (kbListTool envEmptyKb (("agent").toList) (("A1").toList) none none none).audits.length = 0 ∧
    (kbListTool envEmptyKb (("agent").toList) (("A1").toList) none none none).res.isThrown = true := by
  constructor
  · rfl
  · rfl

/-- A server environment with a one-document index and permissive stores. -/
def envOneDoc : ServerEnv :=
  { pstore := fun _ => none, tstore := fun _ _ => none, sink := fun _ => none,
    sessionId := ("s1").toList, docs := [docAlpha] }

/-- Witness for C2: on a nonempty index a successful `kb_list` invocation
writes exactly one audit record. -/
theorem gated_tools_audit_witness :
    (kbListTool envOneDoc (("agent").toList) (("A1").toList) none none none).audits.length = 1 :=
  (((gated_tools_audit envOneDoc).2.1 (("agent").toList) (("A1").toList)
    none none none).1 (by decide)).1

/-- The manifest-visible shape of a loaded document: corpus, id, title,
file and (defaulted) tags. -/
def loadedKey (d : LoadedDoc) : Corpus × Str × Str × Str × List Str :=
  (d.corpus, d.id, d.title, d.file, d.tags)

/-- The shape a manifest entry must take in the built index. -/
def entryKey (c : Corpus) (e : ManifestDoc) : Corpus × Str × Str × Str × List Str :=
  (c, e.id, e.title, e.file, e.tags.getD [])

/-- Loading a corpus's documents succeeds exactly when every referenced
file is readable. -/
theorem loadCorpusDocs_isOk (strip : Str → Str) (outlineOf : Str → List Heading)
    (src : CorpusSource) (c : Corpus) (l : List ManifestDoc) :
    (loadCorpusDocs strip outlineOf src c l).isOk = true ↔
      ∀ d ∈ l, (src.readDocFile d.file).isOk = true := by
  induction l with
  | nil => simp [loadCorpusDocs, Except.isOk, Except.toBool]
  | cons d rest ih =>
    simp only [loadCorpusDocs, bind, Except.bind]
    cases hf : src.readDocFile d.file with
    | error e => simp [hf, Except.isOk, Except.toBool]
    | ok md =>
      cases ht : loadCorpusDocs strip outlineOf src c rest with
      | error e =>
        rw [ht] at ih
        simp only [List.mem_cons]
        simp only [Except.isOk, Except.toBool] at ih ⊢
        simp [hf, ← ih]
      | ok out =>
        rw [ht] at ih
        simp only [List.mem_cons]
        simp only [Except.isOk, Except.toBool] at ih ⊢
        simp [hf, ← ih]

/-- A successfully loaded corpus is exactly the manifest entries in
manifest order, with defaulted tags. -/
theorem loadCorpusDocs_ok_map (strip : Str → Str) (outlineOf : Str → List Heading)
    (src : CorpusSource) (c : Corpus) (l : List ManifestDoc)
    (out : List LoadedDoc) (h : loadCorpusDocs strip outlineOf src c l = .ok out) :
    out.map loadedKey = l.map (entryKey c) := by
  induction l generalizing out with
  | nil =>
    simp only [loadCorpusDocs] at h
    cases h
    simp
  | cons d rest ih =>
    simp only [loadCorpusDocs, bind, Except.bind] at h
    cases hf : src.readDocFile d.file with
    | error e => rw [hf] at h; cases h
    | ok md =>
      rw [hf] at h
      cases ht : loadCorpusDocs strip outlineOf src c rest with
      | error e => rw [ht] at h; cases h
      | ok tail =>
        rw [ht] at h
        cases h
        simp only [List.map_cons]
        rw [ih tail ht]
        rfl

/-- Loading one corpus succeeds exactly when its manifest parses and every
referenced file is readable. -/
theorem loadCorpus_isOk (strip : Str → Str) (outlineOf : Str → List Heading)
    (src : CorpusSource) (c : Corpus) :
    (loadCorpus strip outlineOf src c).isOk = true ↔
      ∃ m, src.manifest = .ok m ∧
        ∀ d ∈ m.documents, (src.readDocFile d.file).isOk = true := by
  simp only [loadCorpus, bind, Except.bind]
  cases hm : src.manifest with
  | error e =>
    simp [Except.isOk, Except.toBool]
  | ok m =>
    constructor
    · intro h
      exact ⟨m, rfl, (loadCorpusDocs_isOk strip outlineOf src c m.documents).mp h⟩
    · rintro ⟨m2, hm2, hf⟩
      cases hm2
      exact (loadCorpusDocs_isOk strip outlineOf src c m.documents).mpr hf

/-- The whole build succeeds exactly when both corpus loads succeed. -/
theorem kbInit_isOk (strip : Str → Str) (outlineOf : Str → List Heading)
    (hs ts : CorpusSource) :
    (kbInit strip outlineOf hs ts).isOk = true ↔
      ((loadCorpus strip outlineOf hs Corpus.human).isOk = true ∧
       (loadCorpus strip outlineOf ts Corpus.technical).isOk = true) := by
  simp only [kbInit, bind, Except.bind]
  cases h1 : loadCorpus strip outlineOf hs Corpus.human <;>
    cases h2 : loadCorpus strip outlineOf ts Corpus.technical <;>
      simp [Except.isOk, Except.toBool]

/-- C5 (amended): the build fails as a whole — no partial index — exactly
when a manifest read/parse fails or any referenced file is unreadable;
document entries are not field-validated (empty ids and titles are
accepted), missing tags default to the empty list, and a successful build
publishes the load-ordered human-then-technical snapshot atomically. -/
theorem kb_init_atomic (strip : Str → Str) (outlineOf : Str → List Heading)
    (hs ts : CorpusSource) :
    ((kbInit strip outlineOf hs ts).isOk = true ↔
      ((∃ mh, hs.manifest = .ok mh ∧
          ∀ d ∈ mh.documents, (hs.readDocFile d.file).isOk = true) ∧
       (∃ mt, ts.manifest = .ok mt ∧
          ∀ d ∈ mt.documents, (ts.readDocFile d.file).isOk = true))) ∧
    (∀ mh mt docs, hs.manifest = .ok mh → ts.manifest = .ok mt →
      kbInit strip outlineOf hs ts = .ok docs →
      docs.map loadedKey =
        mh.documents.map (entryKey Corpus.human) ++
          mt.documents.map (entryKey Corpus.technical)) := by
  constructor
  · rw [kbInit_isOk strip outlineOf hs ts, loadCorpus_isOk strip outlineOf hs Corpus.human,
      loadCorpus_isOk strip outlineOf ts Corpus.technical]
  · intro mh mt docs hmh hmt hinit
    simp only [kbInit, loadCorpus, bind, Except.bind, hmh, hmt] at hinit
    cases hh : loadCorpusDocs strip outlineOf hs Corpus.human mh.documents with
    | error e => rw [hh] at hinit; cases hinit
    | ok hdocs =>
      rw [hh] at hinit
      cases htl : loadCorpusDocs strip outlineOf ts Corpus.technical mt.documents with
      | error e => rw [htl] at hinit; cases hinit
      | ok tdocs =>
        rw [htl] at hinit
        cases hinit
        rw [List.map_append, loadCorpusDocs_ok_map strip outlineOf hs Corpus.human _ _ hh,
          loadCorpusDocs_ok_map strip outlineOf ts Corpus.technical _ _ htl]

/-- A manifest entry with empty id and title and absent tags. -/
def badManifestDoc : ManifestDoc :=
  { id := [], title := [], file := ("f.md").toList, tags := none }

/-- A human corpus source whose manifest parses but carries the invalid
entry `badManifestDoc`, with every file readable. -/
def badHumanSrc : CorpusSource :=
  { manifest := .ok { documents := [badManifestDoc] },
    readDocFile := fun _ => .ok [] }

/-- A technical corpus source with an empty manifest. -/
def emptyTechSrc : CorpusSource :=
  { manifest := .ok { documents := [] }, readDocFile := fun _ => .ok [] }

/-- Counterexample for C5 as stated: a manifest entry with an empty id and
an empty title does not fail the build — the paginated revision performs
no field validation, and the malformed document lands in the index. -/
theorem kb_init_no_field_validation_counterexample :
    kbInit (fun s => s) (fun _ => []) badHumanSrc emptyTechSrc =
      .ok [{ id := [], corpus := .human, title := [], tags := [],
             file := ("f.md").toList, markdown := [], text := [],
             outline := [] }] := by
  rfl

/-- A well-formed one-entry human manifest source. -/
def goodManifestDoc : ManifestDoc :=
  { id := ("h1").toList, title := ("H").toList, file := ("h.md").toList,
    tags := some [("t").toList] }

/-- A human corpus source carrying `goodManifestDoc`. -/
def goodHumanSrc : CorpusSource :=
  { manifest := .ok { documents := [goodManifestDoc] },
    readDocFile := fun _ => .ok (("hello").toList) }

/-- The index built from `goodHumanSrc` and `emptyTechSrc`. -/
def goodInitDocs : List LoadedDoc :=
  [{ id := ("h1").toList, corpus := .human, title := ("H").toList,
     tags := [("t").toList], file := ("h.md").toList,
     markdown := ("hello").toList, text := ("hello").toList, outline := [] }]

/-- Witness for C5: a concrete successful build publishes exactly the
manifest entries, in load order, with their tags. -/
theorem kb_init_atomic_witness :
    goodInitDocs.map loadedKey =
      [goodManifestDoc].map (entryKey Corpus.human) ++
        ([] : List ManifestDoc).map (entryKey Corpus.technical) :=
  (kb_init_atomic (fun s => s) (fun _ => []) goodHumanSrc emptyTechSrc).2
    { documents := [goodManifestDoc] } { documents := [] } goodInitDocs rfl rfl rfl

/-- Concatenating the consecutive `take L` chunks of a list reproduces the
list, provided there are enough chunks. -/
theorem chunk_flatten {α : Type} (L : Nat) (hL : 1 ≤ L) :
    ∀ (m : Nat) (l : List α), l.length ≤ m * L →
      ((List.range m).map (fun k => (l.drop (k * L)).take L)).flatten = l := by
  intro m
  induction m with
  | zero =>
    intro l hl
    have : l = [] := by
      have : l.length = 0 := by omega
      exact List.length_eq_zero.mp this
    subst this
    simp
  | succ m ih =>
    intro l hl
    rw [List.range_succ_eq_map]
    simp only [List.map_cons, List.map_map, List.flatten_cons, Nat.zero_mul,
      List.drop_zero]
    have hcomp : (List.range m).map ((fun k => (l.drop (k * L)).take L) ∘ Nat.succ) =
        (List.range m).map (fun k => ((l.drop L).drop (k * L)).take L) := by
      apply List.map_congr_left
      intro k _
      simp only [Function.comp]
      rw [List.drop_drop]
      have hLk : L + k * L = Nat.succ k * L := by
        rw [Nat.succ_mul, Nat.add_comm]
      rw [hLk]
    rw [hcomp, ih (l.drop L) (by simp only [List.length_drop]; rw [Nat.succ_mul] at hl; omega)]
    exact List.take_append_drop L l

/-- The page count `⌈n / L⌉` covers all `n` items. -/
theorem le_ceil_mul (n L : Nat) (hL : 1 ≤ L) : n ≤ ((n + L - 1) / L) * L := by
  have hmod := Nat.div_add_mod (n + L - 1) L
  have hlt : (n + L - 1) % L < L := Nat.mod_lt _ (by omega)
  rw [Nat.mul_comm]
  obtain ⟨M, hM⟩ : ∃ M, L * ((n + L - 1) / L) = M := ⟨_, rfl⟩
  rw [hM] at hmod ⊢
  omega

/-- The page of a `kbList` outcome (empty for a thrown error). -/
def listResults : Except Str ListResult → List DocSummary
  | .ok r => r.results
  | .error _ => []

/-- The reported total of a `kbList` outcome (`none` for a thrown error). -/
def listTotal : Except Str ListResult → Option Nat
  | .ok r => some r.total
  | .error _ => none

/-- C6: for every corpus filter and page size `L ≥ 1`, the pages
`kbList(corpus, L, 0), kbList(corpus, L, L), …` each report the total
count of matching documents, and their concatenation reproduces every
matching document exactly once, in load order, with no duplicates or
gaps. -/
theorem kb_list_pagination (docs : List LoadedDoc) (corpus : Option Corpus)
    (L : Nat) (hL : 1 ≤ L) :
    (∀ k, k < ((docs.filter (corpusMatch corpus)).length + L - 1) / L →
      listTotal (kbList docs corpus (some L) (some (k * L))) =
        some (docs.filter (corpusMatch corpus)).length) ∧
    ((List.range (((docs.filter (corpusMatch corpus)).length + L - 1) / L)).map
        (fun k => listResults (kbList docs corpus (some L) (some (k * L))))).flatten =
      (docs.filter (corpusMatch corpus)).map docSummary := by
  have hok : docs.length ≠ 0 →
      ∀ o : Nat, kbList docs corpus (some L) (some o) =
        .ok { total := (docs.filter (corpusMatch corpus)).length, limit := L,
              offset := o,
              results := (((docs.filter (corpusMatch corpus)).drop o).take L).map
                docSummary } := by
    intro hlen o
    unfold kbList
    rw [if_neg hlen]
    rfl
  by_cases hn : (docs.filter (corpusMatch corpus)).length = 0
  · have hceil : ((docs.filter (corpusMatch corpus)).length + L - 1) / L = 0 := by
      rw [hn]
      exact Nat.div_eq_of_lt (by omega)
    have hfil : docs.filter (corpusMatch corpus) = [] := List.length_eq_zero.mp hn
    rw [hceil]
    constructor
    · intro k hk
      omega
    · simp [hfil]
  · have hdocs : docs.length ≠ 0 := by
      intro hcontra
      have : docs = [] := List.length_eq_zero.mp hcontra
      subst this
      simp at hn
    constructor
    · intro k _
      rw [hok hdocs (k * L)]
      rfl
    · have hmapeq : (List.range (((docs.filter (corpusMatch corpus)).length + L - 1) / L)).map
          (fun k => listResults (kbList docs corpus (some L) (some (k * L)))) =
        (List.range (((docs.filter (corpusMatch corpus)).length + L - 1) / L)).map
          (fun k => (((docs.filter (corpusMatch corpus)).drop (k * L)).take L).map
            docSummary) := by
        apply List.map_congr_left
        intro k _
        rw [hok hdocs (k * L)]
        rfl
      rw [hmapeq]
      have hjoin : (List.range (((docs.filter (corpusMatch corpus)).length + L - 1) / L)).map
            (fun k => (((docs.filter (corpusMatch corpus)).drop (k * L)).take L).map
              docSummary) =
          (List.range (((docs.filter (corpusMatch corpus)).length + L - 1) / L)).map
            (List.map docSummary ∘ fun k =>
              ((docs.filter (corpusMatch corpus)).drop (k * L)).take L) := by
        rfl
      rw [hjoin, ← List.map_map, ← List.map_flatten,
        chunk_flatten L hL _ _ (le_ceil_mul _ L hL)]

/-- Twenty-five one-corpus documents, for the pagination example. -/
def docs25 : List LoadedDoc :=
  (List.range 25).map (fun i =>
    { id := natStr i, corpus := .human, title := ("t").toList, tags := [],
      file := ("f").toList, markdown := [], text := [], outline := [] })

/-- Witness for C6 (the spec's example): with 25 documents,
`list(limit=10, offset=20)` reports total 25 and returns the last 5
documents. -/
theorem kb_list_pagination_witness :
    listTotal (kbList docs25 none (some 10) (some 20)) = some 25 ∧
    (listResults (kbList docs25 none (some 10) (some 20))).length = 5 := by
  constructor
  · have h := (kb_list_pagination docs25 none 10 (by omega)).1 2 (by decide)
    exact h.trans (by decide)
  · decide

/-- The empty normalized query scores zero on every document. -/
theorem scoreOf_nil (d : LoadedDoc) : scoreOf [] d = 0 := by
  unfold scoreOf jsSplit
  rw [splitGo_nil_sep]

/-- The empty normalized query produces no scored hits. -/
theorem searchScored_nil (docs : List LoadedDoc) (corpus : Option Corpus) :
    searchScored docs [] corpus = [] := by
  unfold searchScored
  have hfil : ((docs.filter (corpusMatch corpus)).map
      (fun d => (d, scoreOf [] d))).filter (fun x => 0 < x.2) = [] := by
    rw [List.filter_eq_nil_iff]
    intro a ha
    simp only [List.mem_map] at ha
    obtain ⟨d, _, rfl⟩ := ha
    simp [scoreOf_nil]
  rw [hfil]
  rfl

/-- C9: whenever `kbRender` returns a result, it echoes the audience and
query, and its `sources` are exactly the ids of the top three hits of the
search scoped to the audience corpus, in search order (fewer when fewer
hits exist).  The result is a pure function of the query, the audience and
the index, and this revision returns no excerpts at all. -/
theorem kb_render_top3 (docs : List LoadedDoc) (query : Str) (audience : Corpus)
    (r : RenderResult) (h : kbRender docs query audience = .ok r) :
    r.audience = audience ∧ r.query = query ∧
    r.sources = ((searchScored docs (jsToLower (jsTrim query)) (some audience)).take 3).map
      (fun x => x.1.id) := by
  unfold kbRender at h
  cases hs : kbSearch docs query (some audience) (some 3) none with
  | error e => rw [hs] at h; cases h
  | ok s =>
    rw [hs] at h
    cases h
    simp only [kbSearch] at hs
    split at hs
    · cases hs
    · split at hs
      · next hq =>
        cases hs
        refine ⟨rfl, rfl, ?_⟩
        rw [hq, searchScored_nil]
        rfl
      · next hq =>
        cases hs
        refine ⟨rfl, rfl, ?_⟩
        simp only [List.drop_zero, ← List.map_take, List.take_take, List.map_map,
          Nat.min_self]
        rfl

/-- Witness for C9: rendering `alpha` for the human audience sources the
single matching document. -/
theorem kb_render_top3_witness :
    ({ audience := Corpus.human, query := ("alpha").toList,
       sources := [("alpha").toList] } : RenderResult).sources =
      ((searchScored [docAlpha] (jsToLower (jsTrim (("alpha").toList)))
        (some Corpus.human)).take 3).map (fun x => x.1.id) :=
  (kb_render_top3 [docAlpha] (("alpha").toList) Corpus.human
    { audience := Corpus.human, query := ("alpha").toList,
      sources := [("alpha").toList] } rfl).2.2

/-- Concrete audit parameters for the C8 witness. -/
def logParamsW : LogParams :=
  { requester_type := ("agent").toList, requester_id := ("A1").toList,
    corpus := some (("human").toList), doc_ids := none, query := none,
    format := none, ok := true, error := none, source := none }

/-- Witness for C8: with a failing sink the logger still returns the full
payload as the attempted record, and the console (not the caller) carries
the failure. -/
theorem audit_write_isolated_witness :
    (logKbAccess (fun _ => some (("boom").toList)) (("s1").toList) logParamsW).1 =
      mkPayload (("s1").toList) logParamsW :=
  (audit_write_isolated.1 (fun _ => some (("boom").toList)) (("s1").toList)
    logParamsW).1

/-- Witness for C10: on a concrete environment, omitting the corpus gives
the very same `kb_list` run as passing `"human"`. -/
theorem kb_tools_default_corpus_human_witness :
    kbListTool envOneDoc (("agent").toList) (("A2").toList) none none none =
      kbListTool envOneDoc (("agent").toList) (("A2").toList)
        (some Corpus.human) none none :=
  (kb_tools_default_corpus_human envOneDoc).1 (("agent").toList) (("A2").toList)
    none none

end ViaMcp
